import Mathlib

/-!
# Verification of the cli-bank account ledger engine

Shallow embedding of `src/main.go` (the JSON-file backed variant, which is the
authoritative implementation). Go's `map[string]*Account` is modelled as an
association list `Store`; mutation through shared pointers is modelled as
sequential store updates that re-read the current store, which reproduces the
aliasing behaviour of `*Account` (relevant when a transfer's receiver is the
sender itself). `float64` amounts are modelled as exact rationals, `time.Time`
as a natural number, and the SHA-256 password digest as an arbitrary function
`hsh : String → String` supplied as a parameter.
-/

namespace CliBank

/-- Mirrors Go `type Transaction struct` (src/main.go lines 19-26). -/
structure Transaction where
  time : Nat
  counterparty : String
  amount : ℚ
  closingBalance : ℚ
  message : String
  type : String
deriving DecidableEq, Repr

/-- Mirrors Go `type Account struct` (src/main.go lines 28-35). -/
structure Account where
  fullName : String
  username : String
  password : String
  balance : ℚ
  lastLogin : Nat
  transactions : List Transaction
deriving DecidableEq, Repr

/-- The bank: Go's `var bank = map[string]*Account{}` as an association list. -/
abbrev Store := List (String × Account)

/-- Map lookup, Go `bank[username]`. -/
def find? : Store → String → Option Account
  | [], _ => none
  | (k, a) :: rest, u => if k = u then some a else find? rest u

/-- In-place mutation through the `*Account` pointer stored in the map:
every entry bound to `u` is updated by `f` (a Go map has one such entry). -/
def modify (st : Store) (u : String) (f : Account → Account) : Store :=
  st.map (fun p => if p.1 = u then (p.1, f p.2) else p)

/-- The keys of the store (the usernames). -/
def keys (st : Store) : List String := st.map Prod.fst

/-- Go `readAmount()` (src/main.go lines 115-129): repeatedly reads candidate
amounts and returns the first one that parses and is strictly positive; if the
input stream never supplies one, no amount is ever returned (the loop keeps
prompting) and the surrounding operation never reaches its mutation step. -/
def readAmount? (inputs : List ℚ) : Option ℚ :=
  inputs.find? (fun a => decide (0 < a))

/-- Go `createAccount()` (src/main.go lines 172-202), with the interactive
reads replaced by parameters. Returns the new store and whether an account was
created: a username already present is rejected before any other field is
read; otherwise the account starts with the joining bonus 1000 and an empty
transaction history, and the password is stored as its digest. -/
def createAccount (st : Store) (username fullName password : String)
    (hsh : String → String) : Store × Bool :=
  match find? st username with
  | some _ => (st, false)
  | none =>
      ((username,
        { fullName := fullName
          username := username
          password := hsh password
          balance := 1000
          lastLogin := 0
          transactions := [] }) :: st, true)

/-- Go `depositCash()` (src/main.go lines 230-242) acting on the active
account `u` with an amount already validated by `readAmount`. -/
def depositCash (st : Store) (u : String) (amount : ℚ) (now : Nat) : Store :=
  modify st u (fun a =>
    let b := a.balance + amount
    { a with
      balance := b
      transactions :=
        { time := now
          counterparty := ""
          amount := amount
          closingBalance := b
          message := "credited via cash deposit"
          type := "C" } :: a.transactions })

/-- Go `withdrawCash()` (src/main.go lines 244-256): no overdraft check, the
balance simply decreases. -/
def withdrawCash (st : Store) (u : String) (amount : ℚ) (now : Nat) : Store :=
  modify st u (fun a =>
    let b := a.balance - amount
    { a with
      balance := b
      transactions :=
        { time := now
          counterparty := ""
          amount := amount
          closingBalance := b
          message := "debited via cash withdrawal"
          type := "D" } :: a.transactions })

/-- The debit record built by `transferMoney` (src/main.go lines 280-287). -/
def debitRecord (now : Nat) (toUser : String) (amount closing : ℚ) :
    Transaction :=
  { time := now
    counterparty := toUser
    amount := amount
    closingBalance := closing
    message := "transferred to " ++ toUser
    type := "D" }

/-- The credit record built by `transferMoney` (src/main.go lines 288-295). -/
def creditRecord (now : Nat) (fromUser : String) (amount closing : ℚ) :
    Transaction :=
  { time := now
    counterparty := fromUser
    amount := amount
    closingBalance := closing
    message := "received from " ++ fromUser
    type := "C" }

/-- Go `transferMoney()` (src/main.go lines 258-299) for the active account
`sender`, receiver name `r` and an amount already validated by `readAmount`.
The two balance updates happen first; each transaction record then reads the
*current* balance and username through the account pointers, which the
sequential `modify`/`find?` chain reproduces (including the aliasing when
`r = sender`). An unreachable lookup failure leaves the store unchanged. -/
def transferMoney (st : Store) (sender r : String) (amount : ℚ) (now : Nat) :
    Store :=
  match find? st r with
  | none => st
  | some _ =>
    if amount < 0 then st
    else
      match find? st sender with
      | none => st
      | some sAcc =>
        if sAcc.balance < amount then st
        else
          let st1 := modify st sender (fun a => { a with balance := a.balance - amount })
          let st2 := modify st1 r (fun a => { a with balance := a.balance + amount })
          match find? st2 sender, find? st2 r with
          | some s2, some r2 =>
            let st3 := modify st2 sender (fun a =>
              { a with transactions :=
                  debitRecord now r2.username amount s2.balance :: a.transactions })
            modify st3 r (fun a =>
              { a with transactions :=
                  creditRecord now s2.username amount r2.balance :: a.transactions })
          | _, _ => st

/-- The full transfer interaction: Go looks up the receiver first and aborts
if absent, then loops in `readAmount` until a positive amount is entered; a
stream of inputs that never yields a valid amount leaves the store untouched. -/
def transferOp (st : Store) (sender r : String) (inputs : List ℚ) (now : Nat) :
    Store :=
  match find? st r with
  | none => st
  | some _ =>
    match readAmount? inputs with
    | none => st
    | some amount => transferMoney st sender r amount now

/-- Result of Go `login()` (src/main.go lines 145-170). On success the session
is bound to the account and the previous `LastLogin` is captured before being
overwritten with the current time. -/
inductive LoginResult where
  | success (st : Store) (sessionUser : String) (previousLastLogin : Nat)
  | userNotFound
  | exceededAttempts
  | noInput
deriving DecidableEq, Repr

/-- The password loop of `login()`: `incorrectPasswordCount` starts at 0; a
wrong password with count < 3 is tolerated and re-prompts, a wrong password at
count 3 fails the login; a matching digest breaks out successfully. `none`
means the input stream ended while the loop was still prompting. -/
def loginLoop (hsh : String → String) (stored : String) :
    Nat → List String → Option Bool
  | _, [] => none
  | count, p :: ps =>
    if hsh p = stored then some true
    else if count < 3 then loginLoop hsh stored (count + 1) ps
    else some false

/-- Go `login()` (src/main.go lines 145-170) with the interactive reads as
parameters: `ps` is the stream of entered passwords, `now` the login time. -/
def login (hsh : String → String) (st : Store) (username : String)
    (ps : List String) (now : Nat) : LoginResult :=
  match find? st username with
  | none => .userNotFound
  | some acc =>
    match loginLoop hsh acc.password 0 ps with
    | some true =>
        .success (modify st username (fun a => { a with lastLogin := now }))
          username acc.lastLogin
    | some false => .exceededAttempts
    | none => .noInput

/-- Insert an entry into a key-sorted list, keeping it sorted. -/
def insertSorted (p : String × Account) :
    List (String × Account) → List (String × Account)
  | [] => [p]
  | q :: rest => if p.1 ≤ q.1 then p :: q :: rest else q :: insertSorted p rest

/-- Go `saveData()` (src/main.go lines 68-84): `json.Marshal` serializes the
map as a JSON object whose keys are sorted; each account is written with its
balance and its transaction list in stored (most-recent-first) order. -/
def saveData (st : Store) : List (String × Account) :=
  st.foldr insertSorted []

/-- Go `loadData()` (src/main.go lines 46-66): `json.Decode` reads the saved
object back into `bank`, binding each username to its decoded account. -/
def loadData (saved : List (String × Account)) : Store :=
  saved

/-! ## Store lemmas -/

theorem find?_cons (k : String) (a : Account) (rest : Store) (v : String) :
    find? ((k, a) :: rest) v = if k = v then some a else find? rest v := rfl

theorem modify_cons (k : String) (a : Account) (rest : Store) (u : String)
    (f : Account → Account) :
    modify ((k, a) :: rest) u f =
      (if k = u then (k, f a) else (k, a)) :: modify rest u f := by
  simp [modify]

theorem find?_modify (st : Store) (u : String) (f : Account → Account)
    (v : String) :
    find? (modify st u f) v = if v = u then (find? st u).map f else find? st v := by
  induction st with
  | nil => simp [find?, modify]
  | cons p rest ih =>
    obtain ⟨k, a⟩ := p
    rw [modify_cons]
    by_cases hku : k = u
    · subst hku
      rw [if_pos rfl]
      by_cases hkv : k = v
      · subst hkv
        simp [find?_cons]
      · simp [find?_cons, hkv, Ne.symm hkv, ih]
    · rw [if_neg hku]
      by_cases hkv : k = v
      · subst hkv
        simp [find?_cons, hku, Ne.symm hku]
      · simp [find?_cons, hku, hkv, ih]

theorem find?_modify_self (st : Store) (u : String) (f : Account → Account) :
    find? (modify st u f) u = (find? st u).map f := by
  simp [find?_modify]

theorem find?_modify_ne (st : Store) (u : String) (f : Account → Account)
    (v : String) (h : v ≠ u) :
    find? (modify st u f) v = find? st v := by
  simp [find?_modify, h]

theorem keys_modify (st : Store) (u : String) (f : Account → Account) :
    keys (modify st u f) = keys st := by
  induction st with
  | nil => rfl
  | cons p rest ih =>
    obtain ⟨k, a⟩ := p
    rw [modify_cons]
    by_cases hku : k = u
    · rw [if_pos hku]
      simpa [keys] using ih
    · rw [if_neg hku]
      simpa [keys] using ih

/-! ## Transfer characterization lemmas -/

/-- Successful transfer between two distinct usernames: the sender's balance
decreases before the receiver's increases, and both records are built from the
post-update balances. -/
theorem transferMoney_eq_of_ne (st : Store) (s r : String) (a : ℚ) (now : Nat)
    (sAcc rAcc : Account) (hne : s ≠ r)
    (hs : find? st s = some sAcc) (hr : find? st r = some rAcc)
    (ha0 : ¬ a < 0) (hb : ¬ sAcc.balance < a) :
    transferMoney st s r a now =
      modify (modify (modify (modify st
        s (fun x => { x with balance := x.balance - a }))
        r (fun x => { x with balance := x.balance + a }))
        s (fun x => { x with transactions :=
                        debitRecord now rAcc.username a (sAcc.balance - a) :: x.transactions }))
        r (fun x => { x with transactions :=
                        creditRecord now sAcc.username a (rAcc.balance + a) :: x.transactions }) := by
  have h2s : find? (modify (modify st
      s (fun x => { x with balance := x.balance - a }))
      r (fun x => { x with balance := x.balance + a })) s =
      some { sAcc with balance := sAcc.balance - a } := by
    rw [find?_modify_ne _ _ _ _ hne, find?_modify_self, hs]
    rfl
  have h2r : find? (modify (modify st
      s (fun x => { x with balance := x.balance - a }))
      r (fun x => { x with balance := x.balance + a })) r =
      some { rAcc with balance := rAcc.balance + a } := by
    rw [find?_modify_self, find?_modify_ne _ _ _ _ (Ne.symm hne), hr]
    rfl
  simp only [transferMoney, hr, hs, if_neg ha0, if_neg hb, h2s, h2r]

/-- Successful self-transfer: Go's `receiver` and `currentAccount` pointers
alias the same account, so the debit of the amount is immediately undone by
the credit, both records read the restored balance, and the credit record ends
up on top of the debit record in the single shared history. -/
theorem transferMoney_eq_self (st : Store) (s : String) (a : ℚ) (now : Nat)
    (sAcc : Account) (hs : find? st s = some sAcc)
    (ha0 : ¬ a < 0) (hb : ¬ sAcc.balance < a) :
    transferMoney st s s a now =
      modify (modify (modify (modify st
        s (fun x => { x with balance := x.balance - a }))
        s (fun x => { x with balance := x.balance + a }))
        s (fun x => { x with transactions :=
                        debitRecord now sAcc.username a (sAcc.balance - a + a) :: x.transactions }))
        s (fun x => { x with transactions :=
                        creditRecord now sAcc.username a (sAcc.balance - a + a) :: x.transactions }) := by
  have h2s : find? (modify (modify st
      s (fun x => { x with balance := x.balance - a }))
      s (fun x => { x with balance := x.balance + a })) s =
      some { sAcc with balance := sAcc.balance - a + a } := by
    rw [find?_modify_self, find?_modify_self, hs]
    rfl
  simp only [transferMoney, hs, if_neg ha0, if_neg hb, h2s]

/-! ## Concrete data for witnesses -/

/-- A sample account used to instantiate witness statements. -/
def sampleAccount : Account :=
  { fullName := "Alice A"
    username := "alice"
    password := "pw"
    balance := 1000
    lastLogin := 0
    transactions := [] }

/-- A sample one-account store used to instantiate witness statements. -/
def sampleStore : Store := [("alice", sampleAccount)]

/-! ## Claims -/

/-- The balance relation exactly as claim C1 states it: the balance equals the
first (most recent) transaction's closingBalance, or 0 when the transaction
list is empty. -/
def specBalanceZeroInv (acc : Account) : Bool :=
  match acc.transactions with
  | [] => decide (acc.balance = 0)
  | t :: _ => decide (acc.balance = t.closingBalance)

/-- The corrected per-account invariant: the balance equals the first
transaction's closingBalance, or the joining bonus 1000 when the history is
empty (the state of a freshly created account). -/
def accInv (acc : Account) : Prop :=
  match acc.transactions with
  | [] => acc.balance = 1000
  | t :: _ => acc.balance = t.closingBalance

/-- The corrected invariant over a whole store. -/
def StoreInv (st : Store) : Prop :=
  ∀ k acc, find? st k = some acc → accInv acc

/-- Claim C1 counterexample: immediately after account creation the new account has
balance 1000 (the joining bonus) and an empty transaction list, so the claimed
"balance = 0 when the list is empty" clause is violated. -/
theorem created_account_breaks_zero_empty_clause :
    (find? (createAccount [] "alice" "Alice A" "pw" id).1 "alice").map
      specBalanceZeroInv = some false := by
  simp [createAccount, find?, specBalanceZeroInv]

/-- Claim C1 (amended): with the empty-history case read as "balance = 1000, the
joining bonus" instead of "balance = 0", the invariant "every account's
balance equals the closingBalance of the first entry of its transaction list"
is preserved by account creation, deposit, withdraw and transfer. -/
theorem ops_preserve_balance_closing_inv (hsh : String → String) (st : Store)
    (hInv : StoreInv st) :
    (∀ u fn pw, StoreInv (createAccount st u fn pw hsh).1) ∧
    (∀ u a now, StoreInv (depositCash st u a now)) ∧
    (∀ u a now, StoreInv (withdrawCash st u a now)) ∧
    (∀ s r a now, StoreInv (transferMoney st s r a now)) := by
  refine ⟨?_, ?_, ?_, ?_⟩
  · intro u fn pw k acc h
    cases hf : find? st u with
    | some x =>
      simp only [createAccount, hf] at h
      exact hInv k acc h
    | none =>
      simp only [createAccount, hf, find?_cons] at h
      by_cases hk : u = k
      · rw [if_pos hk] at h
        obtain rfl : _ = acc := Option.some.inj h
        simp [accInv]
      · rw [if_neg hk] at h
        exact hInv k acc h
  · intro u a now k acc h
    rw [depositCash, find?_modify] at h
    by_cases hk : k = u
    · rw [if_pos hk] at h
      cases hu : find? st u with
      | none => rw [hu] at h; simp at h
      | some old =>
        rw [hu, Option.map_some'] at h
        obtain rfl : _ = acc := Option.some.inj h
        simp [accInv]
    · rw [if_neg hk] at h
      exact hInv k acc h
  · intro u a now k acc h
    rw [withdrawCash, find?_modify] at h
    by_cases hk : k = u
    · rw [if_pos hk] at h
      cases hu : find? st u with
      | none => rw [hu] at h; simp at h
      | some old =>
        rw [hu, Option.map_some'] at h
        obtain rfl : _ = acc := Option.some.inj h
        simp [accInv]
    · rw [if_neg hk] at h
      exact hInv k acc h
  · intro s r a now k acc h
    cases hr : find? st r with
    | none =>
      simp only [transferMoney, hr] at h
      exact hInv k acc h
    | some rAcc =>
      by_cases ha0 : a < 0
      · simp only [transferMoney, hr, if_pos ha0] at h
        exact hInv k acc h
      · cases hs : find? st s with
        | none =>
          simp only [transferMoney, hr, hs, if_neg ha0] at h
          exact hInv k acc h
        | some sAcc =>
          by_cases hb : sAcc.balance < a
          · simp only [transferMoney, hr, hs, if_neg ha0, if_pos hb] at h
            exact hInv k acc h
          · by_cases hsr : s = r
            · subst hsr
              have hE : sAcc = rAcc := Option.some.inj (hs.symm.trans hr)
              subst hE
              rw [transferMoney_eq_self st s a now sAcc hs ha0 hb] at h
              by_cases hk : k = s
              · subst hk
                simp [find?_modify, hs] at h
                subst h
                simp [accInv, creditRecord]
              · simp only [find?_modify, if_neg hk] at h
                exact hInv k acc h
            · rw [transferMoney_eq_of_ne st s r a now sAcc rAcc hsr hs hr ha0 hb] at h
              by_cases hk : k = r
              · subst hk
                simp [find?_modify, Ne.symm hsr, hr] at h
                subst h
                simp [accInv, creditRecord]
              · by_cases hk2 : k = s
                · subst hk2
                  simp [find?_modify, hsr, hk, hs] at h
                  subst h
                  simp [accInv, debitRecord]
                · simp only [find?_modify, if_neg hk, if_neg hk2] at h
                  exact hInv k acc h

/-- A concrete store satisfying the corrected invariant, for the witness. -/
theorem sampleStore_inv : StoreInv sampleStore := by
  intro k acc h
  by_cases hk : "alice" = k
  · rw [sampleStore, find?_cons, if_pos hk] at h
    obtain rfl : _ = acc := Option.some.inj h
    simp [accInv, sampleAccount]
  · rw [sampleStore, find?_cons, if_neg hk] at h
    exact absurd h (by simp [find?])

/-- Witness for C1 (amended) at concrete inputs. -/
theorem ops_preserve_balance_closing_inv_witness :
    StoreInv (transferMoney sampleStore "alice" "alice" 5 2) :=
  (ops_preserve_balance_closing_inv id sampleStore sampleStore_inv).2.2.2
    "alice" "alice" 5 2

/-- Claim C7: creation with a username already present is rejected regardless of the
other field values and leaves the store unchanged; creation with a fresh
username adds exactly one account with the fixed joining bonus 1000 and an
empty transaction history. -/
theorem createAccount_duplicate_rejected_fresh_bonus (st : Store)
    (u fn pw : String) (hsh : String → String) :
    ((find? st u).isSome → createAccount st u fn pw hsh = (st, false)) ∧
    (find? st u = none →
      createAccount st u fn pw hsh =
        ((u, { fullName := fn, username := u, password := hsh pw,
               balance := 1000, lastLogin := 0, transactions := [] }) :: st,
         true)) := by
  refine ⟨fun h => ?_, fun h => ?_⟩
  · cases hf : find? st u with
    | none => rw [hf] at h; simp at h
    | some a => simp [createAccount, hf]
  · simp [createAccount, h]

/-- Witness for C7 at concrete inputs. -/
theorem createAccount_duplicate_rejected_fresh_bonus_witness :
    createAccount sampleStore "alice" "Mallory" "other" id = (sampleStore, false) ∧
    createAccount sampleStore "bob" "Bob B" "pw2" id =
      (("bob", { fullName := "Bob B", username := "bob", password := "pw2",
                 balance := 1000, lastLogin := 0, transactions := [] })
        :: sampleStore, true) :=
  ⟨(createAccount_duplicate_rejected_fresh_bonus sampleStore "alice" "Mallory"
      "other" id).1 (by decide),
   (createAccount_duplicate_rejected_fresh_bonus sampleStore "bob" "Bob B"
      "pw2" id).2 (by decide)⟩

/-- Second account and two-account store for the transfer scenario of the
spec (alice with balance 1200 transfers 200 to bob with balance 1000). -/
def aliceAccount : Account :=
  { fullName := "Alice A"
    username := "alice"
    password := "pw"
    balance := 1200
    lastLogin := 0
    transactions := [] }

/-- The receiving account of the transfer scenario. -/
def bobAccount : Account :=
  { fullName := "Bob B"
    username := "bob"
    password := "pw2"
    balance := 1000
    lastLogin := 0
    transactions := [] }

/-- A two-account store for transfer witnesses. -/
def twoStore : Store := [("alice", aliceAccount), ("bob", bobAccount)]

/-- Claim C2: a successful transfer (existing sender and receiver, positive amount,
sender balance at least the amount) creates exactly two transaction records
in one step: a debit prepended to the sender's history and a credit prepended
to the receiver's history, both carrying the same timestamp `now` and the same
amount, each with closingBalance equal to its own account's balance
immediately after the transfer. When the receiver aliases the sender the two
records land on the same history (credit on top) and the closing balances
equal the unchanged final balance. -/
theorem transfer_creates_matched_pair (st : Store) (s r : String) (a : ℚ)
    (now : Nat) (sAcc rAcc : Account)
    (hs : find? st s = some sAcc) (hr : find? st r = some rAcc)
    (ha : 0 < a) (hb : a ≤ sAcc.balance) :
    (s ≠ r →
      find? (transferMoney st s r a now) s =
        some { sAcc with
               balance := sAcc.balance - a
               transactions :=
                 debitRecord now rAcc.username a (sAcc.balance - a)
                   :: sAcc.transactions } ∧
      find? (transferMoney st s r a now) r =
        some { rAcc with
               balance := rAcc.balance + a
               transactions :=
                 creditRecord now sAcc.username a (rAcc.balance + a)
                   :: rAcc.transactions }) ∧
    (s = r →
      find? (transferMoney st s r a now) s =
        some { sAcc with
               transactions :=
                 creditRecord now sAcc.username a sAcc.balance ::
                 debitRecord now sAcc.username a sAcc.balance ::
                 sAcc.transactions }) := by
  have ha0 : ¬ a < 0 := not_lt.mpr ha.le
  have hb' : ¬ sAcc.balance < a := not_lt.mpr hb
  constructor
  · intro hne
    rw [transferMoney_eq_of_ne st s r a now sAcc rAcc hne hs hr ha0 hb']
    constructor
    · simp [find?_modify, hne, Ne.symm hne, hs]
    · simp [find?_modify, hne, Ne.symm hne, hr]
  · intro hsr
    subst hsr
    rw [transferMoney_eq_self st s a now sAcc hs ha0 hb']
    simp [find?_modify, hs]

/-- Witness for C2: the spec scenario, alice (1200) transfers 200 to bob
(1000) at time 9. -/
theorem transfer_creates_matched_pair_witness :
    find? (transferMoney twoStore "alice" "bob" 200 9) "alice" =
      some { aliceAccount with
             balance := aliceAccount.balance - 200
             transactions :=
               debitRecord 9 bobAccount.username 200 (aliceAccount.balance - 200)
                 :: aliceAccount.transactions } ∧
    find? (transferMoney twoStore "alice" "bob" 200 9) "bob" =
      some { bobAccount with
             balance := bobAccount.balance + 200
             transactions :=
               creditRecord 9 aliceAccount.username 200 (bobAccount.balance + 200)
                 :: bobAccount.transactions } :=
  (transfer_creates_matched_pair twoStore "alice" "bob" 200 9 aliceAccount
    bobAccount rfl rfl (by norm_num)
    (by norm_num [aliceAccount])).1 (by decide)

/-- Claim C4 counterexample: a self-transfer of 5 by alice (balance 1000) is not
rejected — it changes the store (two records are prepended to her history). -/
theorem transfer_to_self_changes_state :
    transferMoney sampleStore "alice" "alice" 5 0 ≠ sampleStore := by
  intro hEq
  have hlen : (find? (transferMoney sampleStore "alice" "alice" 5 0)
      "alice").map (fun acc => acc.transactions.length) = some 2 := by
    rw [transferMoney_eq_self sampleStore "alice" 5 0 sampleAccount rfl
      (by norm_num) (by norm_num [sampleAccount])]
    simp [find?_modify, sampleStore, find?, sampleAccount]
  rw [hEq] at hlen
  simp [sampleStore, find?, sampleAccount] at hlen

/-- Claim C4 (amended): transfer requires the receiver to exist, but does not
require the receiver to differ from the sender. A transfer naming an unknown
receiver is rejected with no state change, while a self-transfer of a
positive amount within the balance succeeds: the balance ends unchanged and a
matching credit/debit pair — both records with closingBalance equal to the
unchanged balance — is prepended to the account's history. -/
theorem transfer_requires_receiver_not_distinctness (st : Store) (s : String)
    (a : ℚ) (now : Nat) (sAcc : Account)
    (hs : find? st s = some sAcc) (ha : 0 < a) (hb : a ≤ sAcc.balance) :
    (∀ r, find? st r = none → transferMoney st s r a now = st) ∧
    find? (transferMoney st s s a now) s =
      some { sAcc with
             transactions :=
               creditRecord now sAcc.username a sAcc.balance ::
               debitRecord now sAcc.username a sAcc.balance ::
               sAcc.transactions } := by
  constructor
  · intro r hr
    simp [transferMoney, hr]
  · rw [transferMoney_eq_self st s a now sAcc hs (not_lt.mpr ha.le)
      (not_lt.mpr hb)]
    simp [find?_modify, hs]

/-- Witness for C4 (amended) at concrete inputs. -/
theorem transfer_requires_receiver_not_distinctness_witness :
    transferMoney sampleStore "alice" "ghost" 5 0 = sampleStore ∧
    find? (transferMoney sampleStore "alice" "alice" 5 0) "alice" =
      some { sampleAccount with
             transactions :=
               creditRecord 0 sampleAccount.username 5 sampleAccount.balance ::
               debitRecord 0 sampleAccount.username 5 sampleAccount.balance ::
               sampleAccount.transactions } :=
  have h := transfer_requires_receiver_not_distinctness sampleStore "alice" 5 0
    sampleAccount rfl (by norm_num) (by norm_num [sampleAccount])
  ⟨h.1 "ghost" rfl, h.2⟩

/-- Claim C3: if transfer validation fails — unknown receiver, no positive amount
ever accepted by `readAmount` (it re-prompts on non-positive input without
reaching the mutation step), or sender balance below the accepted amount —
the whole store is unchanged. -/
theorem transfer_validation_failure_no_change (st : Store) (s r : String)
    (inputs : List ℚ) (now : Nat)
    (hfail : find? st r = none ∨ (∀ x ∈ inputs, x ≤ 0) ∨
      (∃ a sAcc, readAmount? inputs = some a ∧ find? st s = some sAcc ∧
        sAcc.balance < a)) :
    transferOp st s r inputs now = st := by
  rcases hfail with hr | hnp | ⟨a, sAcc, hra, hsa, hlt⟩
  · simp [transferOp, hr]
  · have hnone : readAmount? inputs = none := by
      rw [readAmount?, List.find?_eq_none]
      intro x hx
      simpa using not_lt.mpr (hnp x hx)
    cases hfr : find? st r with
    | none => simp [transferOp, hfr]
    | some _ => simp [transferOp, hfr, hnone]
  · have hapos : 0 < a := by
      have := List.find?_some hra
      simpa using this
    cases hfr : find? st r with
    | none => simp [transferOp, hfr]
    | some rAcc =>
      simp only [transferOp, hra]
      simp [transferMoney, hfr, hsa, hlt, not_lt.mpr hapos.le]

/-- Witness for C3: unknown receiver, and insufficient funds, each leave the
store unchanged. -/
theorem transfer_validation_failure_no_change_witness :
    transferOp sampleStore "alice" "ghost" [5] 0 = sampleStore ∧
    transferOp sampleStore "alice" "alice" [2000] 0 = sampleStore :=
  ⟨transfer_validation_failure_no_change sampleStore "alice" "ghost" [5] 0
      (Or.inl rfl),
   transfer_validation_failure_no_change sampleStore "alice" "alice" [2000] 0
      (Or.inr (Or.inr ⟨2000, sampleAccount, by norm_num [readAmount?], rfl,
        by norm_num [sampleAccount]⟩))⟩

/-- Claim C6: a withdrawal of a positive amount on the active account always
succeeds with no overdraft check: the balance decreases by exactly the amount
(and may become negative), and exactly one debit transaction is prepended
whose closingBalance is the new balance. -/
theorem withdrawCash_no_overdraft_check (st : Store) (u : String)
    (acc : Account) (amount : ℚ) (now : Nat)
    (hacc : find? st u = some acc) (hpos : 0 < amount) :
    find? (withdrawCash st u amount now) u =
      some { acc with
             balance := acc.balance - amount
             transactions :=
               { time := now, counterparty := "", amount := amount,
                 closingBalance := acc.balance - amount,
                 message := "debited via cash withdrawal", type := "D" }
                 :: acc.transactions } ∧
    (acc.balance < amount →
      ∀ acc', find? (withdrawCash st u amount now) u = some acc' →
        acc'.balance < 0) := by
  have h1 : find? (withdrawCash st u amount now) u =
      some { acc with
             balance := acc.balance - amount
             transactions :=
               { time := now, counterparty := "", amount := amount,
                 closingBalance := acc.balance - amount,
                 message := "debited via cash withdrawal", type := "D" }
                 :: acc.transactions } := by
    unfold withdrawCash
    rw [find?_modify_self, hacc]
    rfl
  refine ⟨h1, fun hover acc' hacc' => ?_⟩
  rw [h1] at hacc'
  cases hacc'
  simpa using sub_neg.mpr hover

/-- Witness for C6: withdrawing 1500 from a balance of 1000 succeeds and
drives the balance to -500. -/
theorem withdrawCash_no_overdraft_check_witness :
    find? (withdrawCash sampleStore "alice" 1500 7) "alice" =
      some { sampleAccount with
             balance := -500
             transactions :=
               [{ time := 7, counterparty := "", amount := 1500,
                  closingBalance := -500,
                  message := "debited via cash withdrawal", type := "D" }] } := by
  have h := (withdrawCash_no_overdraft_check sampleStore "alice" sampleAccount
    1500 7 (by decide) (by norm_num)).1
  rw [h]
  simp only [sampleAccount]
  norm_num

/-- Claim C10: deposit and withdraw are frame-preserving: every account other than
the active one is looked up unchanged afterwards (all its fields, including
balance, transactions and password digest, are identical). -/
theorem deposit_withdraw_frame (st : Store) (u v : String) (amount : ℚ)
    (now : Nat) (hne : v ≠ u) :
    find? (depositCash st u amount now) v = find? st v ∧
    find? (withdrawCash st u amount now) v = find? st v :=
  ⟨by simpa [depositCash] using find?_modify_ne st u _ v hne,
   by simpa [withdrawCash] using find?_modify_ne st u _ v hne⟩

/-- Witness for C10 at concrete inputs. -/
theorem deposit_withdraw_frame_witness :
    find? (depositCash sampleStore "bob" 5 3) "alice" = find? sampleStore "alice" ∧
    find? (withdrawCash sampleStore "bob" 5 3) "alice" = find? sampleStore "alice" :=
  deposit_withdraw_frame sampleStore "bob" "alice" 5 3 (by decide)

/-- Auxiliary: a correct password entered after at most `3 - k` wrong ones
(counter already at `k`) authenticates. -/
theorem loginLoop_success (hsh : String → String) (stored : String)
    (pre : List String) :
    ∀ (k : Nat) (c : String) (post : List String),
      k + pre.length ≤ 3 → (∀ p ∈ pre, hsh p ≠ stored) → hsh c = stored →
      loginLoop hsh stored k (pre ++ c :: post) = some true := by
  induction pre with
  | nil =>
    intro k c post _ _ hc
    simp [loginLoop, hc]
  | cons p ps ih =>
    intro k c post hlen hwrong hc
    have hp : hsh p ≠ stored := hwrong p (by simp)
    have hlen' : k + (p :: ps).length ≤ 3 := hlen
    rw [List.length_cons] at hlen'
    have hk : k < 3 := by omega
    simp only [List.cons_append, loginLoop, if_neg hp, if_pos hk]
    exact ih (k + 1) c post (by omega)
      (fun q hq => hwrong q (List.mem_cons_of_mem p hq)) hc

/-- Claim C5: against an existing account, exactly 3 wrong passwords are tolerated
(the loop re-prompts after each), a 4th wrong password fails the login with
the exceeded-attempts error, and a correct password entered after at most 3
wrong ones authenticates: the session is bound to the account, the previous
lastLogin is captured, and lastLogin is overwritten with the current time. -/
theorem login_attempt_limit (hsh : String → String) (st : Store) (u : String)
    (acc : Account) (now : Nat) (hacc : find? st u = some acc) :
    (∀ p1 p2 p3 p4 rest,
      hsh p1 ≠ acc.password → hsh p2 ≠ acc.password → hsh p3 ≠ acc.password →
      hsh p4 ≠ acc.password →
      login hsh st u (p1 :: p2 :: p3 :: p4 :: rest) now =
        .exceededAttempts) ∧
    (∀ pre c post, pre.length ≤ 3 → (∀ p ∈ pre, hsh p ≠ acc.password) →
      hsh c = acc.password →
      login hsh st u (pre ++ c :: post) now =
        .success (modify st u (fun x => { x with lastLogin := now })) u
          acc.lastLogin) := by
  constructor
  · intro p1 p2 p3 p4 rest h1 h2 h3 h4
    simp [login, hacc, loginLoop, h1, h2, h3, h4]
  · intro pre c post hlen hw hc
    have hok := loginLoop_success hsh acc.password pre 0 c post
      (by simpa using hlen) hw hc
    simp [login, hacc, hok]

/-- Witness for C5: with an identity digest and stored password "pw", four
wrong attempts fail, and one wrong attempt followed by the correct password
succeeds. -/
theorem login_attempt_limit_witness :
    login id sampleStore "alice" ["a", "b", "c", "d"] 5 =
      LoginResult.exceededAttempts ∧
    login id sampleStore "alice" ["a", "pw"] 5 =
      LoginResult.success
        (modify sampleStore "alice" (fun x => { x with lastLogin := 5 }))
        "alice" sampleAccount.lastLogin :=
  have h := login_attempt_limit id sampleStore "alice" sampleAccount 5 rfl
  ⟨h.1 "a" "b" "c" "d" [] (by decide) (by decide) (by decide) (by decide),
   h.2 ["a"] "pw" [] (by decide) (by decide) (by decide)⟩

/-- A cash operation on the active account, as selectable from the menu. -/
inductive CashOp where
  | deposit (amount : ℚ)
  | withdraw (amount : ℚ)
deriving DecidableEq, Repr

/-- The (positive) magnitude of a cash operation. -/
def CashOp.amount : CashOp → ℚ
  | .deposit a => a
  | .withdraw a => a

/-- Run one cash operation through the code's deposit/withdraw paths (the
timestamp does not affect balances and is fixed at 0). -/
def applyCashOp (st : Store) (u : String) : CashOp → Store
  | .deposit a => depositCash st u a 0
  | .withdraw a => withdrawCash st u a 0

/-- Run a sequence of cash operations left to right. -/
def applyCashOps (st : Store) (u : String) : List CashOp → Store
  | [] => st
  | op :: ops => applyCashOps (applyCashOp st u op) u ops

/-- Sum of the deposited amounts of a sequence. -/
def depositSum : List CashOp → ℚ
  | [] => 0
  | .deposit a :: ops => a + depositSum ops
  | .withdraw _ :: ops => depositSum ops

/-- Sum of the withdrawn amounts of a sequence. -/
def withdrawSum : List CashOp → ℚ
  | [] => 0
  | .deposit _ :: ops => withdrawSum ops
  | .withdraw a :: ops => a + withdrawSum ops

/-- Auxiliary: each cash operation shifts the account's balance by its signed
amount, so a sequence shifts it by the signed total. -/
theorem applyCashOps_balance (u : String) (ops : List CashOp) :
    ∀ st : Store,
      (find? (applyCashOps st u ops) u).map Account.balance =
        (find? st u).map
          (fun acc => acc.balance + depositSum ops - withdrawSum ops) := by
  induction ops with
  | nil =>
    intro st
    cases hf : find? st u <;> simp [applyCashOps, hf, depositSum, withdrawSum]
  | cons op rest ih =>
    intro st
    rw [applyCashOps, ih]
    cases op with
    | deposit a =>
      rw [applyCashOp, depositCash, find?_modify_self]
      cases find? st u <;> simp [depositSum, withdrawSum] <;> ring
    | withdraw a =>
      rw [applyCashOp, withdrawCash, find?_modify_self]
      cases find? st u <;> simp [depositSum, withdrawSum] <;> ring

/-- Claim C8: starting from a freshly created account, after any finite sequence of
deposits and withdrawals the balance equals the joining bonus 1000 plus the
sum of the deposited amounts minus the sum of the withdrawn amounts. -/
theorem balance_after_cash_ops (st : Store) (u fn pw : String)
    (hsh : String → String) (ops : List CashOp)
    (hfresh : find? st u = none)
    (hpos : ∀ op ∈ ops, 0 < op.amount) :
    (find? (applyCashOps (createAccount st u fn pw hsh).1 u ops) u).map
      Account.balance =
      some (1000 + depositSum ops - withdrawSum ops) := by
  have hc : find? (createAccount st u fn pw hsh).1 u =
      some { fullName := fn, username := u, password := hsh pw,
             balance := 1000, lastLogin := 0, transactions := [] } := by
    simp [createAccount, hfresh, find?_cons]
  rw [applyCashOps_balance u ops _, hc]
  simp

/-- Witness for C8: the spec scenario — create, deposit 200, withdraw 1500 —
ends at balance 1000 + 200 - 1500 = -300. -/
theorem balance_after_cash_ops_witness :
    (find? (applyCashOps (createAccount [] "alice" "Alice A" "pw" id).1
      "alice" [CashOp.deposit 200, CashOp.withdraw 1500]) "alice").map
      Account.balance =
      some (1000 + depositSum [CashOp.deposit 200, CashOp.withdraw 1500] -
        withdrawSum [CashOp.deposit 200, CashOp.withdraw 1500]) :=
  balance_after_cash_ops [] "alice" "Alice A" "pw" id
    [CashOp.deposit 200, CashOp.withdraw 1500] rfl
    (by intro op hop
        simp only [List.mem_cons, List.mem_singleton] at hop
        rcases hop with rfl | rfl | h
        · norm_num [CashOp.amount]
        · norm_num [CashOp.amount]
        · simp at h)

/-- Auxiliary: inserting into the sorted image is a permutation of consing. -/
theorem insertSorted_perm (p : String × Account) (l : List (String × Account)) :
    (insertSorted p l).Perm (p :: l) := by
  induction l with
  | nil => rfl
  | cons q rest ih =>
    rw [insertSorted]
    by_cases hle : p.1 ≤ q.1
    · rw [if_pos hle]
    · rw [if_neg hle]
      exact (ih.cons q).trans (List.Perm.swap p q rest)

/-- Auxiliary: the serialized (key-sorted) entry list is a permutation of the
in-memory store. -/
theorem saveData_perm (st : Store) : (saveData st).Perm st := by
  induction st with
  | nil => rfl
  | cons p rest ih =>
    rw [saveData, List.foldr_cons]
    exact (insertSorted_perm p (rest.foldr insertSorted [])).trans (ih.cons p)

/-- Auxiliary: with unique usernames, lookup is invariant under permutation
of the entry list. -/
theorem find?_eq_of_perm {st st' : Store} (h : List.Perm st st')
    (hnd : (keys st).Nodup) (u : String) : find? st u = find? st' u := by
  induction h with
  | nil => rfl
  | cons x h ih =>
    obtain ⟨k, a⟩ := x
    rw [find?_cons, find?_cons]
    by_cases hk : k = u
    · simp [hk]
    · rw [if_neg hk, if_neg hk]
      exact ih (List.nodup_cons.mp hnd).2
  | swap x y l =>
    obtain ⟨k1, a1⟩ := x
    obtain ⟨k2, a2⟩ := y
    have hne : k2 ≠ k1 := by
      intro hEq
      exact (List.nodup_cons.mp hnd).1 (by simp [keys, hEq])
    rw [find?_cons, find?_cons, find?_cons, find?_cons]
    by_cases h1 : k1 = u
    · by_cases h2 : k2 = u
      · exact absurd (h2.trans h1.symm) hne
      · simp [h1, h2]
    · by_cases h2 : k2 = u
      · simp [h1, h2]
      · simp [h1, h2]
  | trans h1 h2 ih1 ih2 =>
    rw [ih1 hnd]
    exact ih2 (((h1.map Prod.fst).nodup_iff).mp hnd)

/-- Claim C9: saving and then loading reproduces the store — every username looks
up the identical account, with the same balance and the same
most-recent-first transaction history, and the set of usernames is preserved
(as a permutation: marshalling sorts the JSON object keys). -/
theorem save_load_round_trip (st : Store) (hnd : (keys st).Nodup) :
    (∀ u, find? (loadData (saveData st)) u = find? st u) ∧
    (keys (loadData (saveData st))).Perm (keys st) := by
  have hperm : (saveData st).Perm st := saveData_perm st
  have hnd' : (keys (saveData st)).Nodup :=
    ((hperm.map Prod.fst).nodup_iff).mpr (by simpa [keys] using hnd)
  exact ⟨fun u => find?_eq_of_perm hperm hnd' u, hperm.map Prod.fst⟩

/-- Witness for C9 on the two-account store. -/
theorem save_load_round_trip_witness :
    (∀ u, find? (loadData (saveData twoStore)) u = find? twoStore u) ∧
    (keys (loadData (saveData twoStore))).Perm (keys twoStore) :=
  save_load_round_trip twoStore (by decide)

end CliBank
